import Mathlib

/-!
Verification of the UploadThing upload-orchestration core.

Shallow embedding of `packages/uploadthing/src/internal/handler.ts`
(the repository ships two revisions of this module; where both contain a
function, the two revisions agree on everything modelled here except the
POST dispatcher, which is embedded from the `createRequestHandler`
revision and compared against the older `handleRequest` pipeline in the
accompanying results).

External collaborators that live outside the embedded sources
(`@uploadthing/shared` crypto and config helpers, user-supplied
middleware and resolvers, the remote ingest service) are modelled as
opaque injected values/functions, following the spec's instruction to
treat them as opaque capabilities.
-/

namespace UploadThing

/-- The closed error taxonomy of `UploadThingError` codes used by the
orchestration core (handler.ts constructs errors with these codes). -/
inductive ErrorCode where
  | BAD_REQUEST
  | NOT_FOUND
  | INTERNAL_SERVER_ERROR
  | INVALID_SERVER_CONFIG
  | UPLOAD_FAILED
  | URL_GENERATION_FAILED
  | FILE_LIMIT_EXCEEDED
deriving DecidableEq, Repr

/-- Structure `UploadThingError` : the tagged error value every failure of the core
is normalized into (`code`, human `message`, optional diagnostic `cause`).
`cause` is modelled as its string rendering. -/
structure UploadThingError where
  code : ErrorCode
  message : String
  cause : Option String := none
deriving DecidableEq, Repr

/-- One client-declared file descriptor of the Upload Action Payload
(`files: [{name, size, type}]`).  The wire schema (shared-schemas, not
under the embedded sources) also lets a client declare a `lastModified`
timestamp; it is carried here so that theorems can state that the
orchestrator never reads it. -/
structure FileData where
  name : String
  size : Nat
  type : String
  lastModified : Option Nat := none
deriving DecidableEq, Repr

/-- One entry of the middleware's `UTFiles` override list, as consumed by
`runRouteMiddleware` (`theirs?.name`, `theirs.size`, `theirs?.customId`,
`theirs?.lastModified`); every field is optional. -/
structure FileOverride where
  name : Option String := none
  size : Option Nat := none
  customId : Option String := none
  lastModified : Option Nat := none
deriving DecidableEq, Repr

/-- The middleware-returned metadata, reduced to the single reserved key
the orchestrator inspects: the optional `UTFiles` per-file override list.
The arbitrary user key/value pairs are opaque to every claim. -/
structure MwMetadata where
  utFiles : Option (List FileOverride) := none
deriving DecidableEq, Repr

/-- One element of `filesWithCustomIds`, as built by the loop in
`runRouteMiddleware`. -/
structure FileWithCustomId where
  name : String
  size : Nat
  type : String
  customId : Option String
  lastModified : Nat
deriving DecidableEq, Repr

/-- Variant of `List.map` with the element index passed to the function (the shape of
the `Effect.forEach (files, (file, idx) => ...)` loops in handler.ts,
which collect results in input order). -/
def mapIdxFrom (f : Nat → α → β) : Nat → List α → List β
  | _, [] => []
  | k, x :: xs => f k x :: mapIdxFrom f (k + 1) xs

theorem mapIdxFrom_length (f : Nat → α → β) (k : Nat) (xs : List α) :
    (mapIdxFrom f k xs).length = xs.length := by
  induction xs generalizing k with
  | nil => rfl
  | cons x xs ih => simp [mapIdxFrom, ih]

theorem mapIdxFrom_getElem? (f : Nat → α → β) (k : Nat) (xs : List α) (i : Nat) :
    (mapIdxFrom f k xs)[i]? = (xs[i]?).map (f (k + i)) := by
  induction xs generalizing k i with
  | nil => simp [mapIdxFrom]
  | cons x xs ih =>
    cases i with
    | zero => simp [mapIdxFrom]
    | succ j =>
      have hidx : k + (j + 1) = (k + 1) + j := by omega
      simp [mapIdxFrom, ih, hidx]

/-- The body of the `filesWithCustomIds` loop in `runRouteMiddleware`:
`{ name: theirs?.name ?? file.name, size: file.size, type: file.type,
   customId: theirs?.customId, lastModified: theirs?.lastModified ?? Date.now() }`.
`now` is the millisecond clock value `Date.now()` observed at
orchestration time. -/
def reconcileFile (now : Nat) (file : FileData) (theirs : Option FileOverride) :
    FileWithCustomId :=
  { name := (theirs.bind FileOverride.name).getD file.name
    size := file.size
    type := file.type
    customId := theirs.bind FileOverride.customId
    lastModified := (theirs.bind FileOverride.lastModified).getD now }

/-- The size-mismatch warning condition of the same loop:
`theirs && theirs.size !== file.size` (JavaScript strict inequality, so an
override that is present but omits `size` also warns). -/
def sizeWarningAt (file : FileData) (theirs : Option FileOverride) : Bool :=
  match theirs with
  | some t => t.size != some file.size
  | none => false

/-- Successful result of `runRouteMiddleware`: the metadata, the
reconciled `filesWithCustomIds`, and the indices at which the loop issued
its `"File size mismatch. Reverting to original size"` log warning. -/
structure MiddlewareResult where
  metadata : MwMetadata
  filesWithCustomIds : List FileWithCustomId
  sizeWarnings : List Nat
deriving DecidableEq, Repr

/-- Function `runRouteMiddleware` from handler.ts (identical in both revisions).
The user middleware itself is opaque user code, so its outcome is
injected as `mw` (an `UploadThingError` if it threw — already wrapped as
INTERNAL_SERVER_ERROR by the `Effect.tryPromise` catch unless it already
was an `UploadThingError`).  After the middleware succeeds:
a `UTFiles` override whose length differs from `files` is a fatal
BAD_REQUEST, otherwise each file is reconciled positionally. -/
def runRouteMiddleware (now : Nat) (files : List FileData)
    (mw : Except UploadThingError MwMetadata) :
    Except UploadThingError MiddlewareResult :=
  match mw with
  | .error e => .error e
  | .ok metadata =>
    match metadata.utFiles with
    | some ov =>
      if ov.length ≠ files.length then
        .error
          { code := .BAD_REQUEST
            message := "Files override must have the same length as files"
            cause := some ("Expected files override to have the same length as original files, got " ++
              toString ov.length ++ " but expected " ++ toString files.length) }
      else
        .ok
          { metadata := metadata
            filesWithCustomIds :=
              mapIdxFrom (fun i file =>
                reconcileFile now file (metadata.utFiles.bind fun l => l[i]?)) 0 files
            sizeWarnings :=
              (mapIdxFrom (fun i file =>
                if sizeWarningAt file (metadata.utFiles.bind fun l => l[i]?) then some i
                else none) 0 files).filterMap id }
    | none =>
      .ok
        { metadata := metadata
          filesWithCustomIds :=
            mapIdxFrom (fun i file =>
              reconcileFile now file (metadata.utFiles.bind fun l => l[i]?)) 0 files
          sizeWarnings :=
            (mapIdxFrom (fun i file =>
              if sizeWarningAt file (metadata.utFiles.bind fun l => l[i]?) then some i
              else none) 0 files).filterMap id }

/-- Normalized per-file-type rules of one bucket of the filled route
config (`fillInputRouteConfig` fills the defaults; only the two fields
the orchestrator reads when building File Upload Requests are kept). -/
structure TypeCfg where
  contentDisposition : String
  acl : Option String := none
deriving DecidableEq, Repr

/-- The filled route config: an association list from file-type bucket
key to its normalized rules (the orchestrator indexes it with
`parsedConfig[type]`). -/
def RouteConfig := List (String × TypeCfg)

/-- One per-file File Upload Request, as assembled by the
`fileUploadRequests` loop in `handleUploadAction`. -/
structure FileUploadRequest where
  name : String
  size : Nat
  type : String
  lastModified : Nat
  customId : Option String
  contentDisposition : String
  acl : Option String
deriving DecidableEq, Repr

/-- One presigned-URL entry of the response body
(`{ url, key, name, customId ?? null }`). -/
structure PresignedEntry where
  url : String
  key : String
  name : String
  customId : Option String
deriving DecidableEq, Repr

/-- Observable outbound work of one upload action: per-file key
derivation + signed-URL construction (`.presign i` for file index `i`),
and the `/route-metadata` registration POST spawned as a daemon. -/
inductive NetEvent where
  | presign (i : Nat)
  | metadataPost
deriving DecidableEq, Repr

/-- The per-request environment of `handleUploadAction`.  Opaque
collaborators (user input validator, user middleware, the shared config
and crypto helpers) are injected as outcomes/functions:
* `now` — the `Date.now()` clock at orchestration time;
* `runUserInputParser` — outcome of `getParseFn(inputParser)(json.input)`,
  already wrapped as a BAD_REQUEST "Invalid input" error on throw;
* `runMiddleware` — outcome of the user middleware (wrapped as
  INTERNAL_SERVER_ERROR unless it threw an `UploadThingError`);
* `fillConfig` — outcome of `fillInputRouteConfig(routerConfig)`, already
  mapped to BAD_REQUEST "Invalid route config" on `InvalidRouteConfig`;
* `checkFilesMeetConfig` — outcome of `assertFilesMeetConfig`, already
  mapped to a BAD_REQUEST error;
* `resolveType` — `getTypeFromFileName(name, objectKeys(config))`
  (`none` models its defect branch);
* `genKey` — `generateKey(file, getFileHashParts)`; it draws fresh
  entropy per file, modelled as a function of the file's position so that
  each file's key is independent of the completion order of the others;
* `signUrl` — `generateSignedURL(ingestUrl/key, apiKey, ttl + signed
  x-ut-* data)`, a deterministic signing over the key and file request. -/
structure UploadEnv where
  now : Nat
  runUserInputParser : Except UploadThingError Unit
  runMiddleware : Except UploadThingError MwMetadata
  fillConfig : Except UploadThingError RouteConfig
  checkFilesMeetConfig : List FileData → RouteConfig → Except UploadThingError Unit
  resolveType : String → RouteConfig → Option String
  genKey : Nat → FileUploadRequest → String
  signUrl : String → FileUploadRequest → String

/-- The Upload Action Payload `{ input, files }`; the raw `input` JSON is
opaque (its validation outcome is injected through the environment). -/
structure UploadActionPayload where
  files : List FileData
deriving DecidableEq, Repr

/-- Sequential `Effect.forEach` over a fallible body: first error aborts,
results are collected in input order. -/
def exceptMap (f : α → Except ε β) : List α → Except ε (List β)
  | [] => .ok []
  | x :: xs =>
    match f x with
    | .error e => .error e
    | .ok y =>
      match exceptMap f xs with
      | .error e => .error e
      | .ok ys => .ok (y :: ys)

/-- Body of the `fileUploadRequests` loop: resolve the file's type bucket
from its (possibly overridden) name, then attach the bucket's
`contentDisposition ?? "inline"` and `acl`.  An unresolvable type is the
`Effect.die` branch, modelled as an INTERNAL_SERVER_ERROR defect. -/
def mkFileUploadRequest (resolveType : String → RouteConfig → Option String)
    (parsedConfig : RouteConfig) (file : FileWithCustomId) :
    Except UploadThingError FileUploadRequest :=
  match resolveType file.name parsedConfig with
  | none =>
    .error
      { code := .INTERNAL_SERVER_ERROR
        message := "Unable to resolve file type"
        cause := some file.name }
  | some t =>
    .ok
      { name := file.name
        size := file.size
        type := file.type
        lastModified := file.lastModified
        customId := file.customId
        contentDisposition :=
          ((parsedConfig.lookup t).map TypeCfg.contentDisposition).getD "inline"
        acl := (parsedConfig.lookup t).bind TypeCfg.acl }

/-- The pair `{ key, url }` generated for the file at position `i` of the
fan-out: `key = generateKey(file, ...)`, `url = generateSignedURL(base/key, ...)`. -/
def presignPair (env : UploadEnv) (i : Nat) (file : FileUploadRequest) :
    String × String :=
  (env.genKey i file, env.signUrl (env.genKey i file) file)

/-- The concurrent fan-out of `Effect.forEach (..., { concurrency:
"unbounded" })` modelled explicitly: `sched` is the order in which the
per-file effects complete (any list of indices); each completion deposits
its `{key, url}` pair into the slot of its own index, and the join reads
the slots back in input order. -/
def presignSlots (env : UploadEnv) (furs : List FileUploadRequest)
    (sched : List Nat) : List (Option (String × String)) :=
  let events := sched.filterMap fun j =>
    (furs[j]?).map fun fur => (j, presignPair env j fur)
  (List.range furs.length).map fun i =>
    (events.find? fun p => p.1 == i).map Prod.snd

/-- Joins the option slots: `some` of all results when every per-file
effect has completed, `none` otherwise (the fiber join of the fan-out
completes only once all forks have). -/
def seqOpt : List (Option α) → Option (List α)
  | [] => some []
  | none :: _ => none
  | some x :: rest => (seqOpt rest).map (x :: ·)

/-- The presign fan-out's observable events in completion order: one
`.presign j` per (valid-index) completion of the schedule. -/
def presignEvents (furs : List FileUploadRequest) (sched : List Nat) : List NetEvent :=
  sched.filterMap fun j =>
    if j < furs.length then some (NetEvent.presign j) else none

/-- Function `handleUploadAction` from handler.ts, as a function of the injected
environment, the parsed Upload Action Payload and a completion schedule
for the presign fan-out.  Returns the result (the ordered presigned-URL
entries of the response body, or the first error) together with the list
of outbound network/crypto events that were performed, in order.  The
final `.metadataPost` event is the `/route-metadata` registration request
forked as a daemon (in dev mode it is the same POST whose streamed
response drives the simulated callbacks); its later outcome never alters
the returned body. -/
def handleUploadAction (env : UploadEnv) (payload : UploadActionPayload)
    (sched : List Nat) :
    Except UploadThingError (List PresignedEntry) × List NetEvent :=
  match env.runUserInputParser with
  | .error e => (.error e, [])
  | .ok _ =>
    match runRouteMiddleware env.now payload.files env.runMiddleware with
    | .error e => (.error e, [])
    | .ok mres =>
      match env.fillConfig with
      | .error e => (.error e, [])
      | .ok parsedConfig =>
        match env.checkFilesMeetConfig payload.files parsedConfig with
        | .error e => (.error e, [])
        | .ok _ =>
          match exceptMap (mkFileUploadRequest env.resolveType parsedConfig)
              mres.filesWithCustomIds with
          | .error e => (.error e, [])
          | .ok fileUploadRequests =>
            match seqOpt (presignSlots env fileUploadRequests sched) with
            | none =>
              (.error
                { code := .URL_GENERATION_FAILED
                  message := "Failed to generate presigned URL" },
               presignEvents fileUploadRequests sched)
            | some presignedUrls =>
              (.ok (List.zipWith
                  (fun (p : String × String) (fur : FileUploadRequest) =>
                    { url := p.2
                      key := p.1
                      name := fur.name
                      customId := fur.customId : PresignedEntry })
                  presignedUrls fileUploadRequests),
               presignEvents fileUploadRequests sched ++ [NetEvent.metadataPost])

/-- The presigned-URL entry the `i`-th input file alone determines:
reconcile the `i`-th file with the `i`-th middleware override, resolve
its type bucket, derive its key and signed URL.  Independent of the
fan-out completion schedule and of every other file. -/
def expectedEntry (env : UploadEnv) (payload : UploadActionPayload) (i : Nat) :
    Option PresignedEntry :=
  match env.runMiddleware, env.fillConfig, payload.files[i]? with
  | .ok md, .ok parsedConfig, some file =>
    let fwc := reconcileFile env.now file (md.utFiles.bind fun l => l[i]?)
    match mkFileUploadRequest env.resolveType parsedConfig fwc with
    | .ok fur =>
      some
        { url := env.signUrl (env.genKey i fur) fur
          key := env.genKey i fur
          name := fur.name
          customId := fur.customId }
    | .error _ => none
  | _, _, _ => none

theorem exceptMap_ok {f : α → Except ε β} :
    ∀ {xs : List α} {ys : List β}, exceptMap f xs = .ok ys →
      ys.length = xs.length ∧
      ∀ (i : Nat) (x : α), xs[i]? = some x → ∃ y, f x = .ok y ∧ ys[i]? = some y := by
  intro xs
  induction xs with
  | nil =>
    intro ys h
    simp only [exceptMap, Except.ok.injEq] at h
    subst h
    exact ⟨rfl, by intro i x hx; simp at hx⟩
  | cons a xs ih =>
    intro ys h
    simp only [exceptMap] at h
    cases hfa : f a with
    | error e => rw [hfa] at h; exact absurd h (by simp)
    | ok y =>
      rw [hfa] at h
      cases hrest : exceptMap f xs with
      | error e => rw [hrest] at h; exact absurd h (by simp)
      | ok ys' =>
        rw [hrest] at h
        simp only [Except.ok.injEq] at h
        subst h
        obtain ⟨hlen, hget⟩ := ih hrest
        refine ⟨by simp [hlen], ?_⟩
        intro i x hx
        cases i with
        | zero =>
          simp only [List.getElem?_cons_zero, Option.some.injEq] at hx
          subst hx
          exact ⟨y, hfa, by simp⟩
        | succ j =>
          simp only [List.getElem?_cons_succ] at hx ⊢
          exact hget j x hx

theorem seqOpt_some :
    ∀ {l : List (Option α)} {xs : List α}, seqOpt l = some xs → l = xs.map some := by
  intro l
  induction l with
  | nil =>
    intro xs h
    simp only [seqOpt, Option.some.injEq] at h
    subst h
    rfl
  | cons o rest ih =>
    intro xs h
    cases o with
    | none => simp [seqOpt] at h
    | some x =>
      simp only [seqOpt] at h
      cases hrest : seqOpt rest with
      | none => rw [hrest] at h; simp at h
      | some ys =>
        rw [hrest] at h
        simp only [Option.map_some', Option.some.injEq] at h
        subst h
        simp [ih hrest]

theorem zipWith_getElem?_of (f : α → β → γ) :
    ∀ (as : List α) (bs : List β) (i : Nat) (a : α) (b : β),
      as[i]? = some a → bs[i]? = some b →
      (List.zipWith f as bs)[i]? = some (f a b) := by
  intro as
  induction as with
  | nil => intro bs i a b ha; simp at ha
  | cons x as ih =>
    intro bs i a b ha hb
    cases bs with
    | nil => simp at hb
    | cons y bs =>
      cases i with
      | zero =>
        simp only [List.getElem?_cons_zero, Option.some.injEq] at ha hb
        subst ha; subst hb
        simp only [List.zipWith_cons_cons, List.getElem?_cons_zero]
      | succ j =>
        simp only [List.getElem?_cons_succ] at ha hb
        simp only [List.zipWith_cons_cons, List.getElem?_cons_succ]
        exact ih bs j a b ha hb

theorem presignSlots_ok (env : UploadEnv) (furs : List FileUploadRequest)
    (sched : List Nat) {prs : List (String × String)}
    (h : seqOpt (presignSlots env furs sched) = some prs) :
    prs.length = furs.length ∧
    ∀ i fur, furs[i]? = some fur → prs[i]? = some (presignPair env i fur) := by
  have hslots := seqOpt_some h
  have hlen : prs.length = furs.length := by
    have h1 : (presignSlots env furs sched).length = furs.length := by
      simp [presignSlots]
    rw [hslots] at h1
    simpa using h1
  refine ⟨hlen, ?_⟩
  intro i fur hfur
  obtain ⟨hi, -⟩ := List.getElem?_eq_some.1 hfur
  have hslot : (presignSlots env furs sched)[i]? =
      some (((sched.filterMap fun j =>
        (furs[j]?).map fun fur => (j, presignPair env j fur)).find?
          fun p => p.1 == i).map Prod.snd) := by
    simp [presignSlots, List.getElem?_range, hi]
  rw [hslots, List.getElem?_map] at hslot
  cases hpr : prs[i]? with
  | none => rw [hpr] at hslot; simp at hslot
  | some pr =>
    rw [hpr] at hslot
    simp only [Option.map_some', Option.some.injEq] at hslot
    cases hfind : (sched.filterMap fun j =>
        (furs[j]?).map fun fur => (j, presignPair env j fur)).find?
          fun p => p.1 == i with
    | none => rw [hfind] at hslot; simp at hslot
    | some q =>
      rw [hfind] at hslot
      simp only [Option.map_some', Option.some.injEq] at hslot
      have hpred := List.find?_some hfind
      have hmem := List.mem_of_find?_eq_some hfind
      rw [List.mem_filterMap] at hmem
      obtain ⟨j, -, hq⟩ := hmem
      cases hfj : furs[j]? with
      | none => rw [hfj] at hq; simp at hq
      | some fur' =>
        rw [hfj] at hq
        simp only [Option.map_some', Option.some.injEq] at hq
        have hq1 : q.1 = j := by rw [← hq]
        have hq2 : q.2 = presignPair env j fur' := by rw [← hq]
        rw [hq1] at hpred
        simp only [beq_iff_eq] at hpred
        rw [hpred] at hfj hq2
        rw [hfur] at hfj
        have hfur' : fur' = fur := by
          injection hfj with h2
          exact h2.symm
        rw [hfur'] at hq2
        rw [hslot, hq2]

theorem runRouteMiddleware_ok {now : Nat} {files : List FileData}
    {mw : Except UploadThingError MwMetadata} {res : MiddlewareResult}
    (h : runRouteMiddleware now files mw = .ok res) :
    ∃ md, mw = .ok md ∧
      res.metadata = md ∧
      (∀ ov, md.utFiles = some ov → ov.length = files.length) ∧
      res.filesWithCustomIds =
        mapIdxFrom (fun i file =>
          reconcileFile now file (md.utFiles.bind fun l => l[i]?)) 0 files ∧
      res.sizeWarnings =
        (mapIdxFrom (fun i file =>
          if sizeWarningAt file (md.utFiles.bind fun l => l[i]?) then some i
          else none) 0 files).filterMap id := by
  unfold runRouteMiddleware at h
  split at h
  · exact absurd h (by simp)
  · rename_i metadata
    refine ⟨metadata, rfl, ?_⟩
    split at h
    · rename_i ov hov
      split at h
      · exact absurd h (by simp)
      · rename_i hlen
        push_neg at hlen
        simp only [Except.ok.injEq] at h
        subst h
        refine ⟨rfl, ?_, rfl, rfl⟩
        intro ov' hov'
        rw [hov] at hov'
        cases hov'
        exact hlen
    · rename_i hov
      simp only [Except.ok.injEq] at h
      subst h
      refine ⟨rfl, ?_, rfl, rfl⟩
      intro ov' hov'
      rw [hov] at hov'
      cases hov'

/-- C1: for every valid upload action (one on which `handleUploadAction`
succeeds), the returned presigned-URL entry list has exactly one entry
per input file, and the `i`-th entry `{url, key, name, customId}` is the
one determined by the `i`-th input file alone (`expectedEntry`), whatever
completion order `sched` the unbounded-concurrency fan-out ran in. -/
theorem handleUploadAction_preserves_order (env : UploadEnv)
    (payload : UploadActionPayload) (sched : List Nat)
    (ps : List PresignedEntry) (evs : List NetEvent)
    (h : handleUploadAction env payload sched = (.ok ps, evs)) :
    ps.length = payload.files.length ∧
    ∀ i, i < ps.length → ps[i]? = expectedEntry env payload i := by
  unfold handleUploadAction at h
  split at h
  · exact absurd h (by simp)
  rename_i u hin
  split at h
  · exact absurd h (by simp)
  rename_i mres hmw
  split at h
  · exact absurd h (by simp)
  rename_i parsedConfig hcfg
  split at h
  · exact absurd h (by simp)
  rename_i uu hchk
  split at h
  · exact absurd h (by simp)
  rename_i furs hfurs
  split at h
  · exact absurd h (by simp)
  rename_i prs hseq
  simp only [Prod.mk.injEq, Except.ok.injEq] at h
  obtain ⟨hps, hevs⟩ := h
  subst hps
  obtain ⟨md, hmd, hmeta, hovlen, hfw, hwarn⟩ := runRouteMiddleware_ok hmw
  obtain ⟨hlen2, hget2⟩ := exceptMap_ok hfurs
  obtain ⟨hlen1, hget1⟩ := presignSlots_ok env furs sched hseq
  have hlenfw : mres.filesWithCustomIds.length = payload.files.length := by
    rw [hfw, mapIdxFrom_length]
  have hlenps : (List.zipWith
      (fun (p : String × String) (fur : FileUploadRequest) =>
        { url := p.2, key := p.1, name := fur.name,
          customId := fur.customId : PresignedEntry })
      prs furs).length = payload.files.length := by
    rw [List.length_zipWith, hlen1, hlen2, hlenfw, Nat.min_self]
  refine ⟨hlenps, ?_⟩
  intro i hi
  rw [hlenps] at hi
  have hfile : payload.files[i]? = some payload.files[i] :=
    List.getElem?_eq_getElem hi
  have hfwc : mres.filesWithCustomIds[i]? =
      some (reconcileFile env.now payload.files[i]
        (md.utFiles.bind fun l => l[i]?)) := by
    rw [hfw, mapIdxFrom_getElem?, hfile]
    simp
  obtain ⟨fur, hmk, hfuri⟩ := hget2 i _ hfwc
  have hpri := hget1 i fur hfuri
  have hzip := zipWith_getElem?_of
    (fun (p : String × String) (fur : FileUploadRequest) =>
      { url := p.2, key := p.1, name := fur.name,
        customId := fur.customId : PresignedEntry })
    prs furs i _ fur hpri hfuri
  rw [hzip]
  simp only [expectedEntry, hmd, hcfg, hfile, hmk, presignPair]

/-- A concrete sample environment for a one-file upload action (trivial
validators, one `image` bucket, deterministic sample key/URL functions). -/
def sampleUploadEnv : UploadEnv :=
  { now := 0
    runUserInputParser := .ok ()
    runMiddleware := .ok {}
    fillConfig := .ok [("image", { contentDisposition := "inline" })]
    checkFilesMeetConfig := fun _ _ => .ok ()
    resolveType := fun _ _ => some "image"
    genKey := fun i _ => "key" ++ toString i
    signUrl := fun k _ => "https://ingest/" ++ k }

/-- A concrete sample one-file Upload Action Payload. -/
def samplePayload : UploadActionPayload :=
  { files := [{ name := "a.png", size := 5, type := "image" }] }

/-- The presigned entries `sampleUploadEnv` produces on `samplePayload`. -/
def samplePresigneds : List PresignedEntry :=
  [{ url := "https://ingest/key0", key := "key0", name := "a.png",
     customId := none }]

/-- Witness for C1: a concrete one-file upload action succeeds and the
theorem's conclusion holds at it. -/
theorem handleUploadAction_preserves_order_witness :
    samplePresigneds.length = samplePayload.files.length ∧
    ∀ i, i < samplePresigneds.length →
      samplePresigneds[i]? = expectedEntry sampleUploadEnv samplePayload i :=
  handleUploadAction_preserves_order sampleUploadEnv samplePayload [0]
    samplePresigneds [NetEvent.presign 0, NetEvent.metadataPost] rfl

theorem runRouteMiddleware_mismatch (now : Nat) (files : List FileData)
    {md : MwMetadata} (ov : List FileOverride)
    (hov : md.utFiles = some ov) (hlen : ov.length ≠ files.length) :
    runRouteMiddleware now files (.ok md) = .error
      { code := .BAD_REQUEST
        message := "Files override must have the same length as files"
        cause := some ("Expected files override to have the same length as original files, got " ++
          toString ov.length ++ " but expected " ++ toString files.length) } := by
  simp only [runRouteMiddleware, hov]
  rw [if_pos hlen]

/-- C2: if the user middleware returns a `UTFiles` override list whose
length differs from the payload's file count, the upload action fails
with the BAD_REQUEST "Files override must have the same length as files"
error and the performed-event list is empty: no key is derived, no URL is
signed, and no `/route-metadata` registration is sent. -/
theorem handleUploadAction_override_mismatch (env : UploadEnv)
    (payload : UploadActionPayload) (sched : List Nat) (md : MwMetadata)
    (ov : List FileOverride)
    (hin : env.runUserInputParser = .ok ())
    (hmd : env.runMiddleware = .ok md)
    (hov : md.utFiles = some ov)
    (hlen : ov.length ≠ payload.files.length) :
    ∃ e, handleUploadAction env payload sched = (.error e, []) ∧
      e.code = .BAD_REQUEST ∧
      e.message = "Files override must have the same length as files" := by
  have hmw := runRouteMiddleware_mismatch env.now payload.files ov hov hlen
  rw [← hmd] at hmw
  refine ⟨{ code := .BAD_REQUEST
            message := "Files override must have the same length as files"
            cause := some ("Expected files override to have the same length as original files, got " ++
              toString ov.length ++ " but expected " ++ toString payload.files.length) },
    ?_, rfl, rfl⟩
  simp only [handleUploadAction, hin, hmw]

/-- A sample environment whose middleware returns a one-entry `UTFiles`
override. -/
def sampleMismatchEnv : UploadEnv :=
  { now := 0
    runUserInputParser := .ok ()
    runMiddleware := .ok { utFiles := some [{}] }
    fillConfig := .ok []
    checkFilesMeetConfig := fun _ _ => .ok ()
    resolveType := fun _ _ => none
    genKey := fun _ _ => ""
    signUrl := fun _ _ => "" }

/-- A sample two-file payload (so the one-entry override mismatches). -/
def sampleMismatchPayload : UploadActionPayload :=
  { files := [{ name := "a.png", size := 1, type := "image" },
              { name := "b.png", size := 2, type := "image" }] }

/-- Witness for C2 at a concrete mismatching override. -/
theorem handleUploadAction_override_mismatch_witness :
    ∃ e, handleUploadAction sampleMismatchEnv sampleMismatchPayload [] =
        (.error e, []) ∧
      e.code = .BAD_REQUEST ∧
      e.message = "Files override must have the same length as files" :=
  handleUploadAction_override_mismatch sampleMismatchEnv sampleMismatchPayload
    [] { utFiles := some [{}] } [{}] rfl rfl rfl (by decide)

theorem runRouteMiddleware_ok_of_len (now : Nat) (files : List FileData)
    (md : MwMetadata)
    (h : ∀ ov, md.utFiles = some ov → ov.length = files.length) :
    runRouteMiddleware now files (.ok md) = .ok
      { metadata := md
        filesWithCustomIds :=
          mapIdxFrom (fun i file =>
            reconcileFile now file (md.utFiles.bind fun l => l[i]?)) 0 files
        sizeWarnings :=
          (mapIdxFrom (fun i file =>
            if sizeWarningAt file (md.utFiles.bind fun l => l[i]?) then some i
            else none) 0 files).filterMap id } := by
  cases hov : md.utFiles with
  | some ov =>
    simp only [runRouteMiddleware, hov]
    rw [if_neg (fun hne => hne (h ov hov))]
  | none =>
    simp only [runRouteMiddleware, hov]

/-- C6: after a successful middleware run, every derived file keeps the
client-declared `size` — even when the positional override carries a
different `size` — while the override's `name`, `customId` and
`lastModified` are adopted when present; an override whose `size`
disagrees with the payload only lands in the warning log, it never fails
the request (success here requires nothing about sizes, only the length
agreement). -/
theorem runRouteMiddleware_size_wins (now : Nat) (files : List FileData)
    (md : MwMetadata)
    (hlen : md.utFiles = none ∨
      ∃ ov, md.utFiles = some ov ∧ ov.length = files.length) :
    ∃ res, runRouteMiddleware now files (.ok md) = .ok res ∧
      (∀ (i : Nat) (file : FileData), files[i]? = some file →
        ∃ fwc, res.filesWithCustomIds[i]? = some fwc ∧
          fwc.size = file.size ∧
          fwc.name = ((md.utFiles.bind fun l => l[i]?).bind FileOverride.name).getD file.name ∧
          fwc.customId = (md.utFiles.bind fun l => l[i]?).bind FileOverride.customId ∧
          fwc.lastModified = ((md.utFiles.bind fun l => l[i]?).bind FileOverride.lastModified).getD now) ∧
      (∀ (i : Nat) (file : FileData) (theirs : FileOverride),
        files[i]? = some file →
        (md.utFiles.bind fun l => l[i]?) = some theirs →
        theirs.size ≠ some file.size → i ∈ res.sizeWarnings) := by
  have h : ∀ ov, md.utFiles = some ov → ov.length = files.length := by
    intro ov hov
    cases hlen with
    | inl hnone => rw [hnone] at hov; cases hov
    | inr hex =>
      obtain ⟨ov', hov', hlen'⟩ := hex
      rw [hov'] at hov
      cases hov
      exact hlen'
  refine ⟨_, runRouteMiddleware_ok_of_len now files md h, ?_, ?_⟩
  · intro i file hfile
    refine ⟨reconcileFile now file (md.utFiles.bind fun l => l[i]?), ?_,
      rfl, rfl, rfl, rfl⟩
    show (mapIdxFrom (fun i file =>
      reconcileFile now file (md.utFiles.bind fun l => l[i]?)) 0 files)[i]? = _
    rw [mapIdxFrom_getElem?, hfile]
    simp
  · intro i file theirs hfile hth hne
    have hg : (mapIdxFrom (fun i file =>
        if sizeWarningAt file (md.utFiles.bind fun l => l[i]?) then some i
        else none) 0 files)[i]? = some (some i) := by
      rw [mapIdxFrom_getElem?, hfile]
      simp [hth, sizeWarningAt, hne]
    exact List.mem_filterMap.2 ⟨some i, List.getElem?_mem hg, rfl⟩

/-- Witness inputs for C6: one file of size 10 with an override at the
same index claiming size 99 (and an override name). -/
def sampleWarnMetadata : MwMetadata :=
  { utFiles := some [{ name := some "renamed.png", size := some 99 }] }

/-- Witness for C6 at a mismatching override size. -/
theorem runRouteMiddleware_size_wins_witness :
    ∃ res, runRouteMiddleware 7 [{ name := "a.png", size := 10, type := "image" }]
        (.ok sampleWarnMetadata) = .ok res ∧
      (∀ (i : Nat) (file : FileData),
        ([{ name := "a.png", size := 10, type := "image" : FileData }])[i]? = some file →
        ∃ fwc, res.filesWithCustomIds[i]? = some fwc ∧
          fwc.size = file.size ∧
          fwc.name = ((sampleWarnMetadata.utFiles.bind fun l => l[i]?).bind FileOverride.name).getD file.name ∧
          fwc.customId = (sampleWarnMetadata.utFiles.bind fun l => l[i]?).bind FileOverride.customId ∧
          fwc.lastModified = ((sampleWarnMetadata.utFiles.bind fun l => l[i]?).bind FileOverride.lastModified).getD 7) ∧
      (∀ (i : Nat) (file : FileData) (theirs : FileOverride),
        ([{ name := "a.png", size := 10, type := "image" : FileData }])[i]? = some file →
        (sampleWarnMetadata.utFiles.bind fun l => l[i]?) = some theirs →
        theirs.size ≠ some file.size → i ∈ res.sizeWarnings) :=
  runRouteMiddleware_size_wins 7 [{ name := "a.png", size := 10, type := "image" }]
    sampleWarnMetadata
    (Or.inr ⟨[{ name := some "renamed.png", size := some 99 }], rfl, rfl⟩)

/-- C10: when no override supplies a `lastModified` for a file (no
override at its index, or one without the field), the reconciled file's
`lastModified` is the server clock `now` read at orchestration time —
whatever `lastModified` the client may have declared in the payload. -/
theorem lastModified_is_server_now (now : Nat) (files : List FileData)
    (md : MwMetadata) (res : MiddlewareResult) (i : Nat) (file : FileData)
    (hres : runRouteMiddleware now files (.ok md) = .ok res)
    (hfile : files[i]? = some file)
    (hno : ((md.utFiles.bind fun l => l[i]?).bind FileOverride.lastModified) = none) :
    ∃ fwc, res.filesWithCustomIds[i]? = some fwc ∧ fwc.lastModified = now := by
  obtain ⟨md', hmd', hmeta, hovlen, hfw, hwarn⟩ := runRouteMiddleware_ok hres
  injection hmd' with hmd'
  subst hmd'
  refine ⟨reconcileFile now file (md.utFiles.bind fun l => l[i]?), ?_, ?_⟩
  · rw [hfw, mapIdxFrom_getElem?, hfile]
    simp
  · simp [reconcileFile, hno]

/-- Witness for C10: one file whose client payload even declares
`lastModified := 1111`, no override; the result's `lastModified` is the
server clock 42. -/
theorem lastModified_is_server_now_witness :
    ∃ fwc, ({ metadata := { utFiles := none }
              filesWithCustomIds :=
                [{ name := "a.png", size := 10, type := "image",
                   customId := none, lastModified := 42 }]
              sizeWarnings := [] } : MiddlewareResult).filesWithCustomIds[0]? =
        some fwc ∧ fwc.lastModified = 42 :=
  lastModified_is_server_now 42
    [{ name := "a.png", size := 10, type := "image", lastModified := some 1111 }]
    { utFiles := none } _ 0
    { name := "a.png", size := 10, type := "image", lastModified := some 1111 }
    rfl rfl rfl

/-- Per-request environment of `handleCallbackRequest`:
* `verified` — the outcome of `verifySignature(rawBody,
  x-uploadthing-signature header, apiKey)` (the crypto primitive is an
  opaque external capability per the spec, so only its boolean verdict is
  modelled);
* `parseBody` — outcome of decoding the body against the
  `{status, file, metadata}` schema (already a ParseError-derived
  error on failure; the decoded payload itself is opaque to the claims). -/
structure CallbackEnv where
  verified : Bool
  parseBody : Except UploadThingError Unit

/-- Function `handleCallbackRequest` from handler.ts (identical in the parts
modelled in both revisions): verify the signature, short-circuiting with
BAD_REQUEST "Invalid signature"; decode the payload; then fork the
daemon fiber that invokes the route's `onUploadComplete` resolver and
POSTs `/callback-result`.  The second component records whether that
resolver-invoking fiber was forked at all; the response body on success
is `null` (`none`). -/
def handleCallbackRequest (env : CallbackEnv) :
    Except UploadThingError (Option Unit) × Bool :=
  if env.verified = false then
    (.error { code := .BAD_REQUEST, message := "Invalid signature" }, false)
  else
    match env.parseBody with
    | .error e => (.error e, false)
    | .ok _ => (.ok none, true)

/-- C5: a callback request whose signature fails verification is answered
with the BAD_REQUEST "Invalid signature" error, and the
`onUploadComplete` resolver fiber is never forked. -/
theorem callback_invalid_signature (env : CallbackEnv)
    (h : env.verified = false) :
    handleCallbackRequest env =
      (.error { code := .BAD_REQUEST, message := "Invalid signature" }, false) := by
  simp [handleCallbackRequest, h]

/-- Witness for C5 at a concrete failing verification. -/
theorem callback_invalid_signature_witness :
    handleCallbackRequest { verified := false, parseBody := .ok () } =
      (.error { code := .BAD_REQUEST, message := "Invalid signature" }, false) :=
  callback_invalid_signature { verified := false, parseBody := .ok () } rfl

/-- The `handleDaemonPromise` route-handler option: ignore the daemon,
await it before responding, or hand its promise to a callback. -/
inductive DaemonPolicy where
  | voidDaemon
  | awaitDaemon
  | onDaemon
deriving DecidableEq, Repr

/-- The value a successfully built request handler closes over: the
router config extracted once at build time (served verbatim by `GET`). -/
structure BuiltHandler (RC : Type) where
  routerConfig : RC

/-- The build-time prelude of `createRequestHandler`: extract the router
config (`extracted` injects the outcome of `extractRouterConfig`, which
lives outside the embedded sources), then reject the self-contradictory
configuration `isDevelopment && handleDaemonPromise === "await"` with
INVALID_SERVER_CONFIG before any route (GET/POST) is built. -/
def createRequestHandler (RC : Type) (isDevelopment : Bool)
    (extracted : Except UploadThingError RC)
    (handleDaemon : Option DaemonPolicy) :
    Except UploadThingError (BuiltHandler RC) :=
  match extracted with
  | .error e => .error e
  | .ok routerConfig =>
    if isDevelopment ∧ handleDaemon = some .awaitDaemon then
      .error
        { code := .INVALID_SERVER_CONFIG
          message := "handleDaemonPromise: \"await\" is forbidden in development." }
    else
      .ok { routerConfig := routerConfig }

/-- C7: with development mode enabled and the blocking "await" daemon
policy, building the request handler fails with INVALID_SERVER_CONFIG
(no handler value is ever produced, so no request can be served). -/
theorem createRequestHandler_dev_await (RC : Type) (cfg : RC)
    (isDevelopment : Bool) (handleDaemon : Option DaemonPolicy)
    (hdev : isDevelopment = true)
    (hpol : handleDaemon = some .awaitDaemon) :
    createRequestHandler RC isDevelopment (.ok cfg) handleDaemon =
      .error
        { code := .INVALID_SERVER_CONFIG
          message := "handleDaemonPromise: \"await\" is forbidden in development." } := by
  simp [createRequestHandler, hdev, hpol]

/-- Witness for C7 at a concrete config. -/
theorem createRequestHandler_dev_await_witness :
    createRequestHandler Nat true (.ok 0) (some .awaitDaemon) =
      .error
        { code := .INVALID_SERVER_CONFIG
          message := "handleDaemonPromise: \"await\" is forbidden in development." } :=
  createRequestHandler_dev_await Nat 0 true (some .awaitDaemon) rfl rfl

/-- Function `buildPermissionsInfoHandler` from handler.ts: a closure that, on
every call, maps the immutable route registry (association list from slug
to raw route config, in registration order) through `fill`.
`fill` injects `fillInputRouteConfig` from `@uploadthing/shared` (not
under the embedded sources); modelled from the spec: normalization of an
immutable route definition is a pure, memoizable function. -/
def buildPermissionsInfoHandler (Raw Norm : Type) (fill : Raw → Norm)
    (router : List (String × Raw)) : Unit → List (String × Norm) :=
  fun _ => router.map fun p => (p.1, fill p.2)

/-- List of `n` successive invocations of the GET introspection handler with no
intervening registry change. -/
def introspectionCalls (Raw Norm : Type) (fill : Raw → Norm)
    (router : List (String × Raw)) (n : Nat) : List (List (String × Norm)) :=
  (List.range n).map fun _ => buildPermissionsInfoHandler Raw Norm fill router ()

/-- C8: any two of `n` successive introspection calls return identical
output — for each slug the same normalized config, in the same
(registration) order — namely the registry mapped through the
normalizer. -/
theorem introspection_idempotent (Raw Norm : Type) (fill : Raw → Norm)
    (router : List (String × Raw)) (n i j : Nat) (hi : i < n) (hj : j < n) :
    (introspectionCalls Raw Norm fill router n)[i]? =
      (introspectionCalls Raw Norm fill router n)[j]? ∧
    (introspectionCalls Raw Norm fill router n)[i]? =
      some (router.map fun p => (p.1, fill p.2)) := by
  have key : ∀ k, k < n → (introspectionCalls Raw Norm fill router n)[k]? =
      some (router.map fun p => (p.1, fill p.2)) := by
    intro k hk
    simp [introspectionCalls, buildPermissionsInfoHandler, List.getElem?_range, hk]
  rw [key i hi, key j hj]
  exact ⟨rfl, rfl⟩

/-- Witness for C8: three calls over a one-route registry, comparing the
first and the third. -/
theorem introspection_idempotent_witness :
    (introspectionCalls Nat Nat Nat.succ [("avatar", 3)] 3)[0]? =
      (introspectionCalls Nat Nat Nat.succ [("avatar", 3)] 3)[2]? ∧
    (introspectionCalls Nat Nat Nat.succ [("avatar", 3)] 3)[0]? =
      some ([("avatar", 3)].map fun p => (p.1, Nat.succ p.2)) :=
  introspection_idempotent Nat Nat Nat.succ [("avatar", 3)] 3 0 2
    (by decide) (by decide)

/-- The decoded `actionType` query parameter (the `ActionType` schema of
the embedded revision admits exactly `"upload"`). -/
inductive ActionType where
  | upload
deriving DecidableEq, Repr

/-- The decoded `uploadthing-hook` header (`UploadThingHook` schema;
`"callback"` is the hook the embedded dispatcher matches on). -/
inductive UploadThingHook where
  | callback
deriving DecidableEq, Repr

/-- A POST request to the route handler, after schema decoding of the
headers and query parameters the dispatcher looks at (a raw header/param
that fails its schema never reaches the dispatcher: it becomes a
ParseError → BAD_REQUEST response upstream). -/
structure PostRequest where
  versionHeader : Option String
  slugParam : Option String
  actionTypeParam : Option ActionType
  hookHeader : Option UploadThingHook
deriving DecidableEq, Repr

/-- The client-version gate of the POST handler in `createRequestHandler`:
`x-uploadthing-version` defaults to the server's own `pkgJson.version`
when absent; a differing value is rejected with BAD_REQUEST
"Client version mismatch" whose cause carries both versions. -/
def checkVersion (serverVersion : String) (versionHeader : Option String) :
    Except UploadThingError Unit :=
  let clientVersion := versionHeader.getD serverVersion
  if clientVersion ≠ serverVersion then
    .error
      { code := .BAD_REQUEST
        message := "Client version mismatch"
        cause := some ("Server version: " ++ serverVersion ++
          ", Client version: " ++ clientVersion) }
  else .ok ()

/-- Outcome of the `Match.value({actionType, uploadthingHook})` dispatch:
the upload handler, the callback handler, or the `Match.orElse` branch
(which yields `{ body: null, fiber: null }`). -/
inductive Dispatch where
  | upload (slug : String)
  | callback (slug : String)
  | fallthrough
deriving DecidableEq, Repr

/-- Slug resolution and action dispatch of the POST handler: a missing
`slug` parameter is a schema ParseError (BAD_REQUEST "Invalid input"), an
unregistered slug is NOT_FOUND, and the `(actionType, uploadthing-hook)`
pair selects the handler exactly as the ordered `Match.when` clauses do,
with everything else falling through. -/
def slugAndDispatch (slugs : List String) (req : PostRequest) :
    Except UploadThingError Dispatch :=
  match req.slugParam with
  | none => .error { code := .BAD_REQUEST, message := "Invalid input" }
  | some slug =>
    if slugs.contains slug then
      .ok (match req.actionTypeParam, req.hookHeader with
        | some .upload, none => .upload slug
        | none, some .callback => .callback slug
        | _, _ => .fallthrough)
    else
      .error
        { code := .NOT_FOUND
          message := "No file route found for slug " ++ slug }

/-- The POST handler's request classification: version gate, then slug
resolution and dispatch. -/
def postClassify (serverVersion : String) (slugs : List String)
    (req : PostRequest) : Except UploadThingError Dispatch :=
  match checkVersion serverVersion req.versionHeader with
  | .error e => .error e
  | .ok _ => slugAndDispatch slugs req

/-- A successful POST response body: the JSON `null` body (callback
responses and the `Match.orElse` fall-through) or a presigned-entry
list (upload responses). -/
inductive ResponseBody where
  | jsonNull
  | presigneds (entries : List PresignedEntry)
deriving DecidableEq, Repr

/-- The POST handler around the classification: dispatch to the upload or
callback handler (their outcomes injected as `uploadResult` /
`callbackResult`), with the `Match.orElse` branch answering the JSON
`null` body as a success. -/
def postResponse (serverVersion : String) (slugs : List String)
    (req : PostRequest)
    (uploadResult callbackResult : Except UploadThingError ResponseBody) :
    Except UploadThingError ResponseBody :=
  match postClassify serverVersion slugs req with
  | .error e => .error e
  | .ok (.upload _) => uploadResult
  | .ok (.callback _) => callbackResult
  | .ok .fallthrough => .ok .jsonNull

/-- Boolean prefix test on character lists. -/
def isPrefixL : List Char → List Char → Bool
  | [], _ => true
  | _ :: _, [] => false
  | p :: ps, c :: cs => p == c && isPrefixL ps cs

/-- Boolean segment (contiguous substring) test on character lists. -/
def hasSeg : List Char → List Char → Bool
  | pat, [] => pat.isEmpty
  | pat, c :: cs => isPrefixL pat (c :: cs) || hasSeg pat cs

/-- Test `hasSubstr s pat` : does `pat` occur contiguously in `s`? -/
def hasSubstr (s pat : String) : Bool :=
  hasSeg pat.data s.data

theorem checkVersion_mismatch (serverVersion v : String)
    (hne : v ≠ serverVersion) :
    checkVersion serverVersion (some v) = .error
      { code := .BAD_REQUEST
        message := "Client version mismatch"
        cause := some ("Server version: " ++ serverVersion ++
          ", Client version: " ++ v) } := by
  simp only [checkVersion, Option.getD_some]
  rw [if_pos hne]

/-- Counterexample for C3: at server version "6.13.2" and client version
"0.0.0" the handler does fail with BAD_REQUEST, but the error's `message`
("Client version mismatch") contains neither version string — the
versions are only in the `cause`. -/
theorem version_mismatch_message_lacks_versions :
    ∃ e, postClassify "6.13.2" ["avatar"]
        { versionHeader := some "0.0.0", slugParam := some "avatar",
          actionTypeParam := some .upload, hookHeader := none } = .error e ∧
      e.code = .BAD_REQUEST ∧
      hasSubstr e.message "6.13.2" = false ∧
      hasSubstr e.message "0.0.0" = false := by
  refine ⟨{ code := .BAD_REQUEST
            message := "Client version mismatch"
            cause := some ("Server version: " ++ "6.13.2" ++
              ", Client version: " ++ "0.0.0") }, ?_, rfl, ?_, ?_⟩
  · rfl
  · decide
  · decide

/-- C3 (amended): a present-but-different `x-uploadthing-version` header
always makes the POST handler fail with a BAD_REQUEST error whose
`message` is "Client version mismatch" and whose `cause` is the string
carrying both the server and the client version; classification stops
there, so the request is never processed further. -/
theorem version_mismatch_bad_request (serverVersion : String)
    (slugs : List String) (req : PostRequest) (v : String)
    (hv : req.versionHeader = some v) (hne : v ≠ serverVersion) :
    ∃ e, postClassify serverVersion slugs req = .error e ∧
      e.code = .BAD_REQUEST ∧
      e.message = "Client version mismatch" ∧
      e.cause = some ("Server version: " ++ serverVersion ++
        ", Client version: " ++ v) := by
  refine ⟨{ code := .BAD_REQUEST
            message := "Client version mismatch"
            cause := some ("Server version: " ++ serverVersion ++
              ", Client version: " ++ v) }, ?_, rfl, rfl, rfl⟩
  have hchk := checkVersion_mismatch serverVersion v hne
  rw [← hv] at hchk
  simp only [postClassify, hchk]

/-- Witness for the amended C3 at concrete versions. -/
theorem version_mismatch_bad_request_witness :
    ∃ e, postClassify "6.13.2" ["avatar"]
        { versionHeader := some "7.0.0", slugParam := some "avatar",
          actionTypeParam := some .upload, hookHeader := none } = .error e ∧
      e.code = .BAD_REQUEST ∧
      e.message = "Client version mismatch" ∧
      e.cause = some ("Server version: " ++ "6.13.2" ++
        ", Client version: " ++ "7.0.0") :=
  version_mismatch_bad_request "6.13.2" ["avatar"]
    { versionHeader := some "7.0.0", slugParam := some "avatar",
      actionTypeParam := some .upload, hookHeader := none }
    "7.0.0" rfl (by decide)

/-- C9: a POST request with no `x-uploadthing-version` header defaults
the client version to the server's own version, so the version gate
passes and classification proceeds exactly as it would with a matching
header (the mismatch error is only possible when the header is present
and different). -/
theorem missing_version_header_processed (serverVersion : String)
    (slugs : List String) (req : PostRequest)
    (hv : req.versionHeader = none) :
    checkVersion serverVersion req.versionHeader = .ok () ∧
    postClassify serverVersion slugs req = slugAndDispatch slugs req := by
  have hchk : checkVersion serverVersion req.versionHeader = .ok () := by
    rw [hv]
    simp [checkVersion]
  exact ⟨hchk, by simp only [postClassify, hchk]⟩

/-- Witness for C9 at a concrete headerless request. -/
theorem missing_version_header_processed_witness :
    checkVersion "6.13.2"
      ({ versionHeader := none, slugParam := some "avatar",
         actionTypeParam := some .upload, hookHeader := none } :
        PostRequest).versionHeader = .ok () ∧
    postClassify "6.13.2" ["avatar"]
      { versionHeader := none, slugParam := some "avatar",
        actionTypeParam := some .upload, hookHeader := none } =
      slugAndDispatch ["avatar"]
        { versionHeader := none, slugParam := some "avatar",
          actionTypeParam := some .upload, hookHeader := none } :=
  missing_version_header_processed "6.13.2" ["avatar"]
    { versionHeader := none, slugParam := some "avatar",
      actionTypeParam := some .upload, hookHeader := none } rfl

/-- Counterexample for C4: a POST with a matching version, a registered
slug, no `actionType` and no hook header — an invalid combination — is
answered with a *successful* response (the JSON `null` body of
`Match.orElse`), not a failure; the injected upload/callback handler
outcomes are never consulted. -/
theorem invalid_combination_succeeds :
    postResponse "1.0.0" ["avatar"]
      { versionHeader := none, slugParam := some "avatar",
        actionTypeParam := none, hookHeader := none }
      (.error { code := .INTERNAL_SERVER_ERROR, message := "upload ran" })
      (.error { code := .INTERNAL_SERVER_ERROR, message := "callback ran" }) =
    .ok .jsonNull := rfl

/-- C4 (amended): any `(actionType, uploadthing-hook)` combination other
than (upload, no hook) and (no actionType, callback) is never dispatched
to the upload or the callback handler — the response is independent of
both handlers' outcomes — and when it is not one of the version/slug/
parse failures it is the successful JSON `null` fall-through response,
not a failure. -/
theorem invalid_combination_never_dispatched (serverVersion : String)
    (slugs : List String) (req : PostRequest)
    (u1 c1 u2 c2 : Except UploadThingError ResponseBody)
    (hnu : ¬(req.actionTypeParam = some .upload ∧ req.hookHeader = none))
    (hnc : ¬(req.actionTypeParam = none ∧
      req.hookHeader = some .callback)) :
    postResponse serverVersion slugs req u1 c1 =
      postResponse serverVersion slugs req u2 c2 ∧
    ∀ b, postResponse serverVersion slugs req u1 c1 = .ok b →
      b = .jsonNull := by
  have hdisp : ∀ d, postClassify serverVersion slugs req = .ok d →
      d = .fallthrough := by
    intro d hd
    unfold postClassify at hd
    split at hd
    · exact absurd hd (by simp)
    unfold slugAndDispatch at hd
    split at hd
    · exact absurd hd (by simp)
    rename_i slug hslug
    split at hd
    · simp only [Except.ok.injEq] at hd
      subst hd
      rcases hat : req.actionTypeParam with _ | at1
      · rcases hh : req.hookHeader with _ | h1
        · rfl
        · cases h1
          exact absurd ⟨hat, hh⟩ hnc
      · cases at1
        rcases hh : req.hookHeader with _ | h1
        · exact absurd ⟨hat, hh⟩ hnu
        · cases h1
          rfl
    · exact absurd hd (by simp)
  constructor
  · unfold postResponse
    cases hcl : postClassify serverVersion slugs req with
    | error e => rfl
    | ok d =>
      rw [hdisp d hcl]
  · intro b hb
    unfold postResponse at hb
    cases hcl : postClassify serverVersion slugs req with
    | error e =>
      rw [hcl] at hb
      exact absurd hb (by simp)
    | ok d =>
      rw [hcl, hdisp d hcl] at hb
      simpa using hb.symm

/-- Witness for the amended C4 at the concrete invalid combination
(actionType = upload together with hook = callback). -/
theorem invalid_combination_never_dispatched_witness :
    postResponse "1.0.0" ["avatar"]
      { versionHeader := none, slugParam := some "avatar",
        actionTypeParam := some .upload, hookHeader := some .callback }
      (.ok (.presigneds [])) (.error { code := .BAD_REQUEST, message := "x" }) =
      postResponse "1.0.0" ["avatar"]
        { versionHeader := none, slugParam := some "avatar",
          actionTypeParam := some .upload, hookHeader := some .callback }
        (.error { code := .NOT_FOUND, message := "y" }) (.ok .jsonNull) ∧
    ∀ b, postResponse "1.0.0" ["avatar"]
        { versionHeader := none, slugParam := some "avatar",
          actionTypeParam := some .upload, hookHeader := some .callback }
        (.ok (.presigneds [])) (.error { code := .BAD_REQUEST, message := "x" }) =
        .ok b → b = .jsonNull :=
  invalid_combination_never_dispatched "1.0.0" ["avatar"]
    { versionHeader := none, slugParam := some "avatar",
      actionTypeParam := some .upload, hookHeader := some .callback }
    (.ok (.presigneds [])) (.error { code := .BAD_REQUEST, message := "x" })
    (.error { code := .NOT_FOUND, message := "y" }) (.ok .jsonNull)
    (by simp) (by simp)

end UploadThing
